import Mathlib

/-
Shallow embedding of the game-clip backend (src/backend: config.py, storage.py,
database.py, main.py) together with proofs about the claims of its design
specification.

Modelling conventions:
- Python strings are Lean `String`s; where character-level work is needed
  (JSON serialization, token encoding) we work on `String.data : List Char`.
- SQLite's clips table is a keyed map `String -> Option ClipRow`; the serialized
  `settings` TEXT column is stored as `Option (List Char)` so that the JSON
  round trip of database.py (`json.dumps` on insert, `json.loads` on get) is
  modelled at the level of the actual serialized text.
- Machine floats (the `duration` media hint) carry no claim-relevant numeric
  content; durations are modelled as integers, and Python's `format(x, '.1f')`
  on an integer-valued duration is modelled exactly (`"3" ++ ".0"`).  The one
  behaviour that matters is that `format` raises `TypeError` when applied to
  `None`, which the model preserves.
- Fallible Python code (raised exceptions mapped by FastAPI to HTTP errors)
  returns `Except HErr`.
-/

/-! ## Decimal digits (models Python `str` of a non-negative int and greedy
digit parsing used by the JSON / token parsers) -/

def digitVal (c : Char) : Option Nat :=
  if 48 ≤ c.toNat ∧ c.toNat ≤ 57 then some (c.toNat - 48) else none

def natToCharsF : Nat → Nat → List Char → List Char
  | 0, n, acc => Char.ofNat (48 + n % 10) :: acc
  | fuel + 1, n, acc =>
    if n < 10 then Char.ofNat (48 + n % 10) :: acc
    else natToCharsF fuel (n / 10) (Char.ofNat (48 + n % 10) :: acc)

def natToChars (n : Nat) : List Char := natToCharsF n n []

def takeDigits : List Char → Nat → (Nat × List Char)
  | [], acc => (acc, [])
  | c :: cs, acc =>
    match digitVal c with
    | some d => takeDigits cs (acc * 10 + d)
    | none => (acc, c :: cs)

/-- a list either is empty or starts with a non-digit character -/
def headNotDigit : List Char → Prop
  | [] => True
  | c :: _ => digitVal c = none

instance : DecidablePred headNotDigit := by
  intro l
  cases l with
  | nil => exact isTrue trivial
  | cons c cs => exact (inferInstance : Decidable (digitVal c = none))

theorem toNat_ofNat_digit (n : Nat) : (Char.ofNat (48 + n % 10)).toNat = 48 + n % 10 := by
  have h : n % 10 < 10 := Nat.mod_lt _ (by omega)
  set k := n % 10 with hk
  interval_cases k <;> decide

theorem digitVal_digitChar (n : Nat) :
    digitVal (Char.ofNat (48 + n % 10)) = some (n % 10) := by
  have h : n % 10 < 10 := Nat.mod_lt _ (by omega)
  unfold digitVal
  rw [toNat_ofNat_digit]
  rw [if_pos (by omega)]
  congr 1
  omega

/-- number of decimal digits of n -/
def decLen (n : Nat) : Nat :=
  if n < 10 then 1 else decLen (n / 10) + 1
termination_by n
decreasing_by
  exact Nat.div_lt_self (by omega) (by omega)

theorem takeDigits_natToCharsF (fuel : Nat) :
    ∀ n a tail, n ≤ fuel →
      takeDigits (natToCharsF fuel n tail) a = takeDigits tail (a * 10 ^ decLen n + n) := by
  induction fuel with
  | zero =>
    intro n a tail hn
    have h0 : n = 0 := by omega
    subst h0
    show takeDigits (Char.ofNat (48 + 0 % 10) :: tail) a = _
    rw [takeDigits, digitVal_digitChar]
    rw [decLen, if_pos (by omega)]
    norm_num
  | succ fuel ih =>
    intro n a tail hn
    by_cases h : n < 10
    · show takeDigits (if n < 10 then Char.ofNat (48 + n % 10) :: tail
          else natToCharsF fuel (n / 10) (Char.ofNat (48 + n % 10) :: tail)) a = _
      rw [if_pos h, decLen, if_pos h]
      rw [takeDigits, digitVal_digitChar]
      have h1 : n % 10 = n := Nat.mod_eq_of_lt h
      rw [h1]
      norm_num
    · show takeDigits (if n < 10 then Char.ofNat (48 + n % 10) :: tail
          else natToCharsF fuel (n / 10) (Char.ofNat (48 + n % 10) :: tail)) a = _
      rw [if_neg h, decLen, if_neg h]
      rw [ih (n / 10) a _ (by omega)]
      rw [takeDigits, digitVal_digitChar]
      show takeDigits tail ((a * 10 ^ decLen (n / 10) + n / 10) * 10 + n % 10) = _
      have harg : (a * 10 ^ decLen (n / 10) + n / 10) * 10 + n % 10
          = a * 10 ^ (decLen (n / 10) + 1) + n := by
        rw [pow_succ, ← Nat.mul_assoc]
        generalize a * 10 ^ decLen (n / 10) = p
        omega
      rw [harg]

theorem takeDigits_stop (n : Nat) (rest : List Char) (h : headNotDigit rest) :
    takeDigits rest n = (n, rest) := by
  cases rest with
  | nil => rfl
  | cons c cs =>
    rw [takeDigits]
    simp only [headNotDigit] at h
    rw [h]

theorem natToCharsF_append (fuel : Nat) :
    ∀ n tail, natToCharsF fuel n tail = natToCharsF fuel n [] ++ tail := by
  induction fuel with
  | zero => intro n tail; rfl
  | succ fuel ih =>
    intro n tail
    by_cases h : n < 10
    · show (if n < 10 then _ else _) = (if n < 10 then _ else _) ++ tail
      rw [if_pos h, if_pos h]
      rfl
    · show (if n < 10 then _ else _) = (if n < 10 then _ else _) ++ tail
      rw [if_neg h, if_neg h]
      rw [ih (n / 10) (Char.ofNat (48 + n % 10) :: tail),
          ih (n / 10) (Char.ofNat (48 + n % 10) :: [])]
      simp

theorem takeDigits_natToChars (n : Nat) (rest : List Char) (h : headNotDigit rest) :
    takeDigits (natToChars n ++ rest) 0 = (n, rest) := by
  unfold natToChars
  rw [← natToCharsF_append n n rest]
  rw [takeDigits_natToCharsF n n 0 rest (Nat.le_refl n)]
  simp only [Nat.zero_mul, Nat.zero_add]
  exact takeDigits_stop n rest h

theorem natToCharsF_head_digit (fuel : Nat) :
    ∀ n acc, ∃ d t, natToCharsF fuel n acc = d :: t ∧ (digitVal d).isSome := by
  induction fuel with
  | zero =>
    intro n acc
    refine ⟨Char.ofNat (48 + n % 10), acc, rfl, ?_⟩
    rw [digitVal_digitChar]
    rfl
  | succ fuel ih =>
    intro n acc
    by_cases h : n < 10
    · refine ⟨Char.ofNat (48 + n % 10), acc, ?_, ?_⟩
      · show (if n < 10 then _ else _) = _
        rw [if_pos h]
      · rw [digitVal_digitChar]; rfl
    · obtain ⟨d, t, h1, h2⟩ := ih (n / 10) (Char.ofNat (48 + n % 10) :: acc)
      refine ⟨d, t, ?_, h2⟩
      show (if n < 10 then _ else _) = _
      rw [if_neg h]
      exact h1

theorem natToChars_head_digit (n : Nat) :
    ∃ d t, natToChars n = d :: t ∧ (digitVal d).isSome :=
  natToCharsF_head_digit n n []

/-! ## Hex digits and the JSON string escaping of Python `json.dumps`
(ensure_ascii default: short escapes, `\uXXXX` for control and non-ASCII
characters, surrogate pairs beyond the BMP) and the matching decoding done by
`json.loads`.  On malformed escape sequences that `dumps` never emits (lone
surrogates) the modelled decoder rejects where CPython would build a
surrogate-carrying `str`; such texts are unreachable from the repository's
writers. -/

def hexDigitChar (n : Nat) : Char := Char.ofNat (if n < 10 then 48 + n else 87 + n)

def hexVal (c : Char) : Option Nat :=
  if 48 ≤ c.toNat ∧ c.toNat ≤ 57 then some (c.toNat - 48)
  else if 97 ≤ c.toNat ∧ c.toNat ≤ 102 then some (c.toNat - 87)
  else if 65 ≤ c.toNat ∧ c.toNat ≤ 70 then some (c.toNat - 55)
  else none

def hex4 (n : Nat) : List Char :=
  [hexDigitChar (n / 4096 % 16), hexDigitChar (n / 256 % 16),
   hexDigitChar (n / 16 % 16), hexDigitChar (n % 16)]

def hex4Val : List Char → Option (Nat × List Char)
  | a :: b :: c :: d :: rest =>
    match hexVal a, hexVal b, hexVal c, hexVal d with
    | some x1, some x2, some x3, some x4 =>
      some (((x1 * 16 + x2) * 16 + x3) * 16 + x4, rest)
    | _, _, _, _ => none
  | _ => none

theorem hexVal_hexDigitChar (k : Nat) (h : k < 16) : hexVal (hexDigitChar k) = some k := by
  interval_cases k <;> decide

theorem hex4Val_hex4 (n : Nat) (h : n < 65536) (rest : List Char) :
    hex4Val (hex4 n ++ rest) = some (n, rest) := by
  show hex4Val (hexDigitChar (n / 4096 % 16) :: hexDigitChar (n / 256 % 16) ::
      hexDigitChar (n / 16 % 16) :: hexDigitChar (n % 16) :: rest) = some (n, rest)
  rw [hex4Val]
  rw [hexVal_hexDigitChar _ (by omega), hexVal_hexDigitChar _ (by omega),
      hexVal_hexDigitChar _ (by omega), hexVal_hexDigitChar _ (by omega)]
  show some (((n / 4096 % 16 * 16 + n / 256 % 16) * 16 + n / 16 % 16) * 16 + n % 16, rest)
      = some (n, rest)
  congr 2
  omega

/-- escape one character the way `json.dumps` (default options) does -/
def encodeChar (c : Char) : List Char :=
  if c = '"' then ['\\', '"']
  else if c = '\\' then ['\\', '\\']
  else if c = '\x08' then ['\\', 'b']
  else if c = '\x09' then ['\\', 't']
  else if c = '\x0a' then ['\\', 'n']
  else if c = '\x0c' then ['\\', 'f']
  else if c = '\x0d' then ['\\', 'r']
  else if 32 ≤ c.toNat ∧ c.toNat ≤ 126 then [c]
  else if c.toNat < 65536 then '\\' :: 'u' :: hex4 c.toNat
  else ('\\' :: 'u' :: hex4 (55296 + (c.toNat - 65536) / 1024))
    ++ ('\\' :: 'u' :: hex4 (56320 + (c.toNat - 65536) % 1024))

def consMapS (c : Char) : Option (List Char × List Char) → Option (List Char × List Char)
  | some (s, r) => some (c :: s, r)
  | none => none

/-- decode a low-surrogate escape following a decoded high surrogate n,
combining the pair into one character, as `json.loads` does -/
def parseLowSurrogate (recur : List Char → Option (List Char × List Char))
    (n : Nat) : List Char → Option (List Char × List Char)
  | '\\' :: 'u' :: tail2 =>
    (match hex4Val tail2 with
     | none => none
     | some (m, rest4) =>
       if 56320 ≤ m ∧ m ≤ 57343 then
         consMapS (Char.ofNat (65536 + (n - 55296) * 1024 + (m - 56320))) (recur rest4)
       else none)
  | _ => none

/-- decode a `\uXXXX` escape (with possible surrogate continuation) -/
def parseUEscape (recur : List Char → Option (List Char × List Char))
    (l : List Char) : Option (List Char × List Char) :=
  match hex4Val l with
  | none => none
  | some (n, rest3) =>
    if n < 55296 ∨ 57344 ≤ n then consMapS (Char.ofNat n) (recur rest3)
    else if n ≤ 56319 then parseLowSurrogate recur n rest3
    else none

/-- decode a backslash escape -/
def parseEscape (recur : List Char → Option (List Char × List Char)) :
    List Char → Option (List Char × List Char)
  | [] => none
  | e :: rest2 =>
    if e = '"' then consMapS '"' (recur rest2)
    else if e = '\\' then consMapS '\\' (recur rest2)
    else if e = '/' then consMapS '/' (recur rest2)
    else if e = 'b' then consMapS '\x08' (recur rest2)
    else if e = 'f' then consMapS '\x0c' (recur rest2)
    else if e = 'n' then consMapS '\x0a' (recur rest2)
    else if e = 'r' then consMapS '\x0d' (recur rest2)
    else if e = 't' then consMapS '\x09' (recur rest2)
    else if e = 'u' then parseUEscape recur rest2
    else none

/-- handle one character of a JSON string body -/
def parseStrCharStep (recur : List Char → Option (List Char × List Char))
    (c : Char) (rest : List Char) : Option (List Char × List Char) :=
  if c = '"' then some ([], rest)
  else if c = '\\' then parseEscape recur rest
  else if c.toNat < 32 then none
  else consMapS c (recur rest)

/-- one step of JSON string-body decoding; `recur` decodes the remainder -/
def parseStrBodyF (recur : List Char → Option (List Char × List Char)) :
    List Char → Option (List Char × List Char)
  | [] => none
  | c :: rest => parseStrCharStep recur c rest

/-- decode the body of a JSON string (after the opening quote) up to the
closing quote, as `json.loads` does; fuel-indexed, one unit per decoded
character -/
def parseStrBody : Nat → List Char → Option (List Char × List Char)
  | 0, _ => none
  | fuel + 1, l => parseStrBodyF (parseStrBody fuel) l

def encodeStr (s : List Char) : List Char := s.foldr (fun c acc => encodeChar c ++ acc) []

/-- serialized form of a Python string under `json.dumps` -/
def dumpStr (s : List Char) : List Char := '"' :: (encodeStr s ++ ['"'])

def parseJsonStr : List Char → Option (List Char × List Char)
  | '"' :: r => parseStrBody (r.length + 1) r
  | _ => none

theorem char_valid_nat (c : Char) :
    c.toNat < 55296 ∨ (57344 ≤ c.toNat ∧ c.toNat < 1114112) := by
  have h := c.valid
  rcases h with h | ⟨h1, h2⟩
  · left; exact h
  · right; exact ⟨h1, h2⟩

theorem parseStrBody_succ (f : Nat) (l : List Char) :
    parseStrBody (f + 1) l = parseStrBodyF (parseStrBody f) l := rfl

theorem parseUEscape_some (recur : List Char → Option (List Char × List Char))
    (l : List Char) (n : Nat) (rest3 : List Char) (h : hex4Val l = some (n, rest3)) :
    parseUEscape recur l =
      (if n < 55296 ∨ 57344 ≤ n then consMapS (Char.ofNat n) (recur rest3)
       else if n ≤ 56319 then parseLowSurrogate recur n rest3
       else none) := by
  unfold parseUEscape
  rw [h]

theorem parseLowSurrogate_some (recur : List Char → Option (List Char × List Char))
    (n m : Nat) (tail2 rest4 : List Char) (h : hex4Val tail2 = some (m, rest4)) :
    parseLowSurrogate recur n ('\\' :: 'u' :: tail2) =
      (if 56320 ≤ m ∧ m ≤ 57343 then
        consMapS (Char.ofNat (65536 + (n - 55296) * 1024 + (m - 56320))) (recur rest4)
       else none) := by
  show (match hex4Val tail2 with
        | none => none
        | some (m, rest4) =>
          if 56320 ≤ m ∧ m ≤ 57343 then
            consMapS (Char.ofNat (65536 + (n - 55296) * 1024 + (m - 56320))) (recur rest4)
          else none) = _
  rw [h]

theorem parseStrBody_succ_cons (f : Nat) (c : Char) (rest : List Char) :
    parseStrBody (f + 1) (c :: rest) = parseStrCharStep (parseStrBody f) c rest := rfl

theorem parseStrCharStep_backslash (recur : List Char → Option (List Char × List Char))
    (rest : List Char) :
    parseStrCharStep recur '\\' rest = parseEscape recur rest := by
  rw [parseStrCharStep, if_neg (by decide : ¬ ('\\' : Char) = '"'), if_pos rfl]

theorem parseEscape_u (recur : List Char → Option (List Char × List Char))
    (l : List Char) :
    parseEscape recur ('u' :: l) = parseUEscape recur l := by
  rw [parseEscape]
  rw [if_neg (by decide : ¬ ('u' : Char) = '"'), if_neg (by decide : ¬ ('u' : Char) = '\\'),
      if_neg (by decide : ¬ ('u' : Char) = '/'), if_neg (by decide : ¬ ('u' : Char) = 'b'),
      if_neg (by decide : ¬ ('u' : Char) = 'f'), if_neg (by decide : ¬ ('u' : Char) = 'n'),
      if_neg (by decide : ¬ ('u' : Char) = 'r'), if_neg (by decide : ¬ ('u' : Char) = 't'),
      if_pos (rfl : ('u' : Char) = 'u')]

theorem parseStrBody_encodeChar (c : Char) (f : Nat) (tail : List Char) :
    parseStrBody (f + 1) (encodeChar c ++ tail) = consMapS c (parseStrBody f tail) := by
  by_cases hq : c = '"'
  · subst hq; rfl
  by_cases hb : c = '\\'
  · subst hb; rfl
  by_cases h08 : c = '\x08'
  · subst h08; rfl
  by_cases h09 : c = '\x09'
  · subst h09; rfl
  by_cases h0a : c = '\x0a'
  · subst h0a; rfl
  by_cases h0c : c = '\x0c'
  · subst h0c; rfl
  by_cases h0d : c = '\x0d'
  · subst h0d; rfl
  by_cases hlit : 32 ≤ c.toNat ∧ c.toNat ≤ 126
  · rw [encodeChar, if_neg hq, if_neg hb, if_neg h08, if_neg h09, if_neg h0a,
        if_neg h0c, if_neg h0d, if_pos hlit]
    show parseStrCharStep (parseStrBody f) c tail = _
    rw [parseStrCharStep, if_neg hq, if_neg hb, if_neg (by omega : ¬ c.toNat < 32)]
  by_cases hbmp : c.toNat < 65536
  · rw [encodeChar, if_neg hq, if_neg hb, if_neg h08, if_neg h09, if_neg h0a,
        if_neg h0c, if_neg h0d, if_neg hlit, if_pos hbmp]
    show parseStrBody (f + 1) ('\\' :: 'u' :: (hex4 c.toNat ++ tail)) = _
    rw [parseStrBody_succ_cons, parseStrCharStep_backslash, parseEscape_u,
        parseUEscape_some _ _ c.toNat tail (hex4Val_hex4 c.toNat hbmp tail)]
    have hvalid := char_valid_nat c
    rw [if_pos (by omega : c.toNat < 55296 ∨ 57344 ≤ c.toNat)]
    rw [Char.ofNat_toNat]
  · rw [encodeChar, if_neg hq, if_neg hb, if_neg h08, if_neg h09, if_neg h0a,
        if_neg h0c, if_neg h0d, if_neg hlit, if_neg hbmp]
    have hvalid := char_valid_nat c
    have hge : 65536 ≤ c.toNat := by omega
    have hlt : c.toNat < 1114112 := by omega
    show parseStrBody (f + 1)
        ('\\' :: 'u' :: (hex4 (55296 + (c.toNat - 65536) / 1024) ++
          ('\\' :: 'u' :: (hex4 (56320 + (c.toNat - 65536) % 1024) ++ tail)))) = _
    rw [parseStrBody_succ_cons, parseStrCharStep_backslash, parseEscape_u,
        parseUEscape_some _ _ _ _ (hex4Val_hex4 _ (by omega) _)]
    rw [if_neg (by omega : ¬ (55296 + (c.toNat - 65536) / 1024 < 55296 ∨
          57344 ≤ 55296 + (c.toNat - 65536) / 1024))]
    rw [if_pos (by omega : 55296 + (c.toNat - 65536) / 1024 ≤ 56319)]
    rw [parseLowSurrogate_some _ _ _ _ _ (hex4Val_hex4 _ (by omega) _)]
    rw [if_pos (by omega : 56320 ≤ 56320 + (c.toNat - 65536) % 1024 ∧
          56320 + (c.toNat - 65536) % 1024 ≤ 57343)]
    have harg : 65536 + (55296 + (c.toNat - 65536) / 1024 - 55296) * 1024 +
        (56320 + (c.toNat - 65536) % 1024 - 56320) = c.toNat := by omega
    rw [harg, Char.ofNat_toNat]

theorem encodeStr_cons (c : Char) (s : List Char) :
    encodeStr (c :: s) = encodeChar c ++ encodeStr s := rfl

theorem parseStrBody_encodeStr (s : List Char) :
    ∀ f tail, s.length < f →
      parseStrBody f (encodeStr s ++ ('"' :: tail)) = some (s, tail) := by
  induction s with
  | nil =>
    intro f tail hf
    obtain ⟨f', rfl⟩ : ∃ f', f = f' + 1 := ⟨f - 1, by omega⟩
    rfl
  | cons c s ih =>
    intro f tail hf
    obtain ⟨f', rfl⟩ : ∃ f', f = f' + 1 := ⟨f - 1, by omega⟩
    rw [encodeStr_cons, List.append_assoc, parseStrBody_encodeChar]
    rw [ih f' tail (by simpa using Nat.lt_of_succ_lt_succ hf)]
    rfl

theorem encodeChar_ne_nil (c : Char) : encodeChar c ≠ [] := by
  unfold encodeChar
  repeat' split
  all_goals simp

theorem length_le_encodeStr (s : List Char) : s.length ≤ (encodeStr s).length := by
  induction s with
  | nil => simp [encodeStr]
  | cons c s ih =>
    rw [encodeStr_cons, List.length_append, List.length_cons]
    have h1 : 1 ≤ (encodeChar c).length := by
      cases h : encodeChar c with
      | nil => exact absurd h (encodeChar_ne_nil c)
      | cons a t => simp
    omega

theorem parseJsonStr_dumpStr (s rest : List Char) :
    parseJsonStr (dumpStr s ++ rest) = some (s, rest) := by
  show parseJsonStr ('"' :: ((encodeStr s ++ ['"']) ++ rest)) = some (s, rest)
  rw [parseJsonStr]
  rw [List.append_assoc]
  show parseStrBody ((encodeStr s ++ ('"' :: rest)).length + 1)
      (encodeStr s ++ ('"' :: rest)) = some (s, rest)
  apply parseStrBody_encodeStr
  rw [List.length_append]
  have := length_le_encodeStr s
  simp only [List.length_cons]
  omega

/-! ## JSON values and Python `json.dumps` / `json.loads` on them.
The `settings` bag of a clip is a Python dict serialized with `json.dumps`
(default separators `", "` and `": "`, `ensure_ascii=True`) and read back with
`json.loads`.  Values are modelled as JSON scalars (the repository itself only
ever stores the empty object `{}`); numeric values are integers, as float
formatting carries no claim-relevant content.  The modelled decoder accepts
exactly the texts `dumps` emits; on malformed texts it rejects where CPython
would raise `ValueError`, and it does not validate the no-leading-zero rule of
JSON numbers, which `dumps` output never exercises. -/

inductive Jprim where
  | null : Jprim
  | jbool (b : Bool) : Jprim
  | jint (n : Int) : Jprim
  | jstr (s : List Char) : Jprim
deriving DecidableEq

/-- decimal representation of a Python int, as `str` / `json.dumps` prints it -/
def intToChars (i : Int) : List Char :=
  if i < 0 then '-' :: natToChars (-i).toNat else natToChars i.toNat

def dumpVal : Jprim → List Char
  | .null => ['n', 'u', 'l', 'l']
  | .jbool true => ['t', 'r', 'u', 'e']
  | .jbool false => ['f', 'a', 'l', 's', 'e']
  | .jint n => intToChars n
  | .jstr s => dumpStr s

/-- decode one JSON scalar value starting at head character c -/
def parseValStep (c : Char) (rest : List Char) : Option (Jprim × List Char) :=
  if c = 'n' then
    match rest with
    | 'u' :: 'l' :: 'l' :: r => some (.null, r)
    | _ => none
  else if c = 't' then
    match rest with
    | 'r' :: 'u' :: 'e' :: r => some (.jbool true, r)
    | _ => none
  else if c = 'f' then
    match rest with
    | 'a' :: 'l' :: 's' :: 'e' :: r => some (.jbool false, r)
    | _ => none
  else if c = '"' then
    match parseStrBody (rest.length + 1) rest with
    | some (s, r) => some (.jstr s, r)
    | none => none
  else if c = '-' then
    match rest with
    | d :: _ =>
      if (digitVal d).isSome then
        some (.jint (-((takeDigits rest 0).1 : Int)), (takeDigits rest 0).2)
      else none
    | [] => none
  else if (digitVal c).isSome then
    some (.jint ((takeDigits (c :: rest) 0).1 : Int), (takeDigits (c :: rest) 0).2)
  else none

def parseVal : List Char → Option (Jprim × List Char)
  | [] => none
  | c :: rest => parseValStep c rest

theorem digit_range (d : Char) (h : (digitVal d).isSome) : 48 ≤ d.toNat ∧ d.toNat ≤ 57 := by
  unfold digitVal at h
  by_cases hr : 48 ≤ d.toNat ∧ d.toNat ≤ 57
  · exact hr
  · rw [if_neg hr] at h
    exact absurd h (by simp)

theorem parseValStep_digit (d : Char) (rest : List Char) (h : (digitVal d).isSome) :
    parseValStep d rest
      = some (.jint ((takeDigits (d :: rest) 0).1 : Int), (takeDigits (d :: rest) 0).2) := by
  have hr := digit_range d h
  have hn : d ≠ 'n' := by intro he; subst he; revert hr; decide
  have ht : d ≠ 't' := by intro he; subst he; revert hr; decide
  have hf : d ≠ 'f' := by intro he; subst he; revert hr; decide
  have hq : d ≠ '"' := by intro he; subst he; revert hr; decide
  have hm : d ≠ '-' := by intro he; subst he; revert hr; decide
  unfold parseValStep
  rw [if_neg hn, if_neg ht, if_neg hf, if_neg hq, if_neg hm, if_pos h]

theorem parseVal_dumpVal (v : Jprim) (rest : List Char) (h : headNotDigit rest) :
    parseVal (dumpVal v ++ rest) = some (v, rest) := by
  cases v with
  | null => rfl
  | jbool b => cases b <;> rfl
  | jstr s =>
    have hshape : dumpVal (Jprim.jstr s) ++ rest
        = '"' :: (encodeStr s ++ ('"' :: rest)) := by
      show ('"' :: (encodeStr s ++ ['"'])) ++ rest = _
      simp [List.append_assoc]
    rw [hshape]
    show (match parseStrBody ((encodeStr s ++ ('"' :: rest)).length + 1)
            (encodeStr s ++ ('"' :: rest)) with
          | some (s, r) => some (Jprim.jstr s, r)
          | none => none) = some (Jprim.jstr s, rest)
    rw [parseStrBody_encodeStr s ((encodeStr s ++ ('"' :: rest)).length + 1) rest
        (by have := length_le_encodeStr s; simp only [List.length_append, List.length_cons]; omega)]
  | jint n =>
    cases n with
    | ofNat m =>
      have hdump : dumpVal (Jprim.jint (Int.ofNat m)) = natToChars m := by
        show intToChars (Int.ofNat m) = natToChars m
        rw [intToChars, if_neg (show ¬ Int.ofNat m < 0 from Int.not_lt.mpr (Int.ofNat_nonneg m))]
        rfl
      rw [hdump]
      obtain ⟨d, t, hdt, hdig⟩ := natToChars_head_digit m
      rw [hdt]
      show parseValStep d (t ++ rest) = _
      rw [parseValStep_digit d (t ++ rest) hdig]
      have hback0 : d :: (t ++ rest) = natToChars m ++ rest := by rw [hdt]; rfl
      rw [hback0, takeDigits_natToChars m rest h]
      rfl
    | negSucc m =>
      have hneg : (-(Int.negSucc m)).toNat = m + 1 := by
        rw [Int.neg_negSucc]
        rfl
      have hdump : dumpVal (Jprim.jint (Int.negSucc m)) = '-' :: natToChars (m + 1) := by
        show intToChars (Int.negSucc m) = _
        rw [intToChars, if_pos (Int.negSucc_lt_zero m), hneg]
      rw [hdump]
      obtain ⟨d, t, hdt, hdig⟩ := natToChars_head_digit (m + 1)
      show parseValStep '-' (natToChars (m + 1) ++ rest) = _
      unfold parseValStep
      rw [if_neg (by decide : ¬ ('-' : Char) = 'n'), if_neg (by decide : ¬ ('-' : Char) = 't'),
          if_neg (by decide : ¬ ('-' : Char) = 'f'), if_neg (by decide : ¬ ('-' : Char) = '"'),
          if_pos (rfl : ('-' : Char) = '-')]
      rw [hdt]
      show (if (digitVal d).isSome then
              some (Jprim.jint (-((takeDigits (d :: (t ++ rest)) 0).1 : Int)),
                (takeDigits (d :: (t ++ rest)) 0).2)
            else none) = _
      rw [if_pos hdig]
      have hback : d :: (t ++ rest) = natToChars (m + 1) ++ rest := by rw [hdt]; rfl
      rw [hback, takeDigits_natToChars (m + 1) rest h]
      show some (Jprim.jint (-((m + 1 : Nat) : Int)), rest) = _
      have hns : -(((m + 1 : Nat) : Int)) = Int.negSucc m := by
        rw [Int.negSucc_eq]
        push_cast
        ring
      rw [hns]

/-! ## JSON objects: the serialized settings dict.  `json.dumps` emits
`\x7b"k": v, ...\x7d` with separators `", "` / `": "`; `json.loads` builds a
Python dict from the parsed members (later duplicate keys overwrite earlier
ones in place, as dict construction does). -/

theorem obind_some {α β : Type} (a : α) (f : α → Option β) : (some a).bind f = f a := rfl

def skipWs : List Char → List Char
  | [] => []
  | c :: r => if c = ' ' ∨ c = '\x09' ∨ c = '\x0a' ∨ c = '\x0d' then skipWs r else c :: r

def parseColon : List Char → Option (List Char)
  | ':' :: r => some r
  | _ => none

def parseAfterValue (recurM : List Char → Option (List (List Char × Jprim) × List Char))
    (k : List Char) (v : Jprim) : List Char → Option (List (List Char × Jprim) × List Char)
  | ',' :: r6 => (recurM (skipWs r6)).map (fun msr => ((k, v) :: msr.1, msr.2))
  | '\x7d' :: r6 => some ([(k, v)], r6)
  | _ => none

/-- parse one object member and, depending on the separator, the remaining
members; `recurM` parses the remaining member list -/
def parseMembersF (recurM : List Char → Option (List (List Char × Jprim) × List Char))
    (input : List Char) : Option (List (List Char × Jprim) × List Char) :=
  (parseJsonStr input).bind fun kr =>
    (parseColon (skipWs kr.2)).bind fun r3 =>
      (parseVal (skipWs r3)).bind fun vr =>
        parseAfterValue recurM kr.1 vr.1 (skipWs vr.2)

def parseMembers : Nat → List Char → Option (List (List Char × Jprim) × List Char)
  | 0, _ => none
  | fuel + 1, input => parseMembersF (parseMembers fuel) input

def parseObjBodyW : List Char → Option (List (List Char × Jprim) × List Char)
  | [] => none
  | c :: rest2 =>
    if c = '\x7d' then some ([], rest2)
    else parseMembers ((c :: rest2).length + 1) (c :: rest2)

/-- parse the members of an object after the opening brace -/
def parseObjBody (r : List Char) : Option (List (List Char × Jprim) × List Char) :=
  parseObjBodyW (skipWs r)

def dumpMember (kv : List Char × Jprim) : List Char :=
  dumpStr kv.1 ++ (':' :: ' ' :: dumpVal kv.2)

def dumpMembers : List (List Char × Jprim) → List Char
  | [] => []
  | [kv] => dumpMember kv
  | kv :: rest => dumpMember kv ++ (',' :: ' ' :: dumpMembers rest)

/-- serialized form of a Python dict under `json.dumps` -/
def pyJsonDumpObj (m : List (List Char × Jprim)) : List Char :=
  match m with
  | [] => ['\x7b', '\x7d']
  | _ :: _ => '\x7b' :: (dumpMembers m ++ ['\x7d'])

/-- a Python value produced by `json.loads`: a dict or a scalar -/
inductive PyJson where
  | obj (members : List (List Char × Jprim)) : PyJson
  | prim (p : Jprim) : PyJson
deriving DecidableEq

def pyKeys (m : List (List Char × Jprim)) : List (List Char) := m.map Prod.fst

/-- dict item assignment: overwrite in place or append -/
def dictInsert : List (List Char × Jprim) → List Char → Jprim → List (List Char × Jprim)
  | [], k, v => [(k, v)]
  | kv :: t, k, v => if kv.1 = k then (kv.1, v) :: t else kv :: dictInsert t k v

/-- build a dict from parsed key/value pairs in order -/
def dictFromPairs (ps : List (List Char × Jprim)) : List (List Char × Jprim) :=
  ps.foldl (fun m kv => dictInsert m kv.1 kv.2) []

def pyJsonLoadsW : List Char → Option PyJson
  | [] => none
  | c :: rest =>
    if c = '\x7b' then
      match parseObjBody rest with
      | some (ms, r) => if skipWs r = [] then some (.obj (dictFromPairs ms)) else none
      | none => none
    else
      match parseVal (c :: rest) with
      | some (v, r) => if skipWs r = [] then some (.prim v) else none
      | none => none

/-- Python `json.loads` on the texts reachable from this repository -/
def pyJsonLoads (s : List Char) : Option PyJson := pyJsonLoadsW (skipWs s)

theorem parseMembers_succ (f : Nat) (l : List Char) :
    parseMembers (f + 1) l = parseMembersF (parseMembers f) l := rfl

theorem skipWs_colon (l : List Char) : skipWs (':' :: l) = ':' :: l := rfl

theorem skipWs_space (l : List Char) : skipWs (' ' :: l) = skipWs l := rfl

theorem skipWs_brace (l : List Char) : skipWs ('\x7d' :: l) = '\x7d' :: l := rfl

theorem parseColon_colon (l : List Char) : parseColon (':' :: l) = some l := rfl

theorem parseAfterValue_comma (recurM : List Char → Option (List (List Char × Jprim) × List Char))
    (k : List Char) (v : Jprim) (r6 : List Char) :
    parseAfterValue recurM k v (',' :: r6)
      = (recurM (skipWs r6)).map (fun msr => ((k, v) :: msr.1, msr.2)) := rfl

theorem parseAfterValue_close (recurM : List Char → Option (List (List Char × Jprim) × List Char))
    (k : List Char) (v : Jprim) (r6 : List Char) :
    parseAfterValue recurM k v ('\x7d' :: r6) = some ([(k, v)], r6) := rfl

theorem headNotDigit_cons (c : Char) (l : List Char) (h : digitVal c = none) :
    headNotDigit (c :: l) := h

theorem skipWs_cons_notws (c : Char) (l : List Char)
    (h : ¬(c = ' ' ∨ c = '\x09' ∨ c = '\x0a' ∨ c = '\x0d')) : skipWs (c :: l) = c :: l := by
  rw [skipWs, if_neg h]

theorem dumpVal_ofNat (m : Nat) : dumpVal (Jprim.jint (Int.ofNat m)) = natToChars m := by
  show intToChars (Int.ofNat m) = natToChars m
  rw [intToChars, if_neg (show ¬ Int.ofNat m < 0 from Int.not_lt.mpr (Int.ofNat_nonneg m))]
  rfl

theorem skipWs_dumpVal (v : Jprim) (l : List Char) :
    skipWs (dumpVal v ++ l) = dumpVal v ++ l := by
  cases v with
  | null => rfl
  | jbool b => cases b <;> rfl
  | jstr s => rfl
  | jint n =>
    cases n with
    | ofNat m =>
      rw [dumpVal_ofNat]
      obtain ⟨d, t, hdt, hdig⟩ := natToChars_head_digit m
      rw [hdt]
      have hr := digit_range d hdig
      show skipWs (d :: (t ++ l)) = _
      rw [skipWs_cons_notws d (t ++ l) (by
        intro hc
        rcases hc with hc | hc | hc | hc <;> (subst hc; revert hr; decide))]
      rfl
    | negSucc m =>
      have hdump : dumpVal (Jprim.jint (Int.negSucc m)) = '-' :: natToChars (m + 1) := by
        show intToChars (Int.negSucc m) = _
        rw [intToChars, if_pos (Int.negSucc_lt_zero m)]
        rw [show (-(Int.negSucc m)).toNat = m + 1 from by rw [Int.neg_negSucc]; rfl]
      rw [hdump]
      rfl

theorem skipWs_dumpMember (kv : List Char × Jprim) (l : List Char) :
    skipWs (dumpMember kv ++ l) = dumpMember kv ++ l := rfl

theorem skipWs_dumpMembers (kv : List Char × Jprim) (m : List (List Char × Jprim))
    (l : List Char) :
    skipWs (dumpMembers (kv :: m) ++ l) = dumpMembers (kv :: m) ++ l := by
  cases m with
  | nil => rfl
  | cons kv2 m' => rfl

theorem parseMembers_dump (m : List (List Char × Jprim)) :
    ∀ kv fuel rest, (kv :: m).length ≤ fuel →
      parseMembers fuel (dumpMembers (kv :: m) ++ ('\x7d' :: rest)) = some (kv :: m, rest) := by
  induction m with
  | nil =>
    intro kv fuel rest hf
    obtain ⟨f, rfl⟩ : ∃ f, fuel = f + 1 := ⟨fuel - 1, by simp at hf; omega⟩
    have hshape : dumpMembers [kv] ++ ('\x7d' :: rest)
        = dumpStr kv.1 ++ ((':' :: ' ' :: dumpVal kv.2) ++ ('\x7d' :: rest)) := by
      show dumpMember kv ++ _ = _
      rw [dumpMember, List.append_assoc]
    rw [parseMembers_succ, hshape]
    unfold parseMembersF
    rw [parseJsonStr_dumpStr]
    simp only [obind_some]
    rw [List.cons_append, List.cons_append]
    rw [skipWs_colon, parseColon_colon]
    simp only [obind_some]
    rw [skipWs_space, skipWs_dumpVal]
    rw [parseVal_dumpVal kv.2 ('\x7d' :: rest) (headNotDigit_cons _ _ (by decide))]
    simp only [obind_some]
    rw [skipWs_brace, parseAfterValue_close]
  | cons kv2 m' ih =>
    intro kv fuel rest hf
    obtain ⟨f, rfl⟩ : ∃ f, fuel = f + 1 := ⟨fuel - 1, by simp at hf; omega⟩
    have hshape : dumpMembers (kv :: kv2 :: m') ++ ('\x7d' :: rest)
        = dumpStr kv.1 ++ ((':' :: ' ' :: dumpVal kv.2) ++
            (',' :: ' ' :: (dumpMembers (kv2 :: m') ++ ('\x7d' :: rest)))) := by
      show (dumpMember kv ++ (',' :: ' ' :: dumpMembers (kv2 :: m'))) ++ ('\x7d' :: rest) = _
      rw [dumpMember]
      simp [List.append_assoc]
    rw [parseMembers_succ, hshape]
    unfold parseMembersF
    rw [parseJsonStr_dumpStr]
    simp only [obind_some]
    rw [List.cons_append, List.cons_append]
    rw [skipWs_colon, parseColon_colon]
    simp only [obind_some]
    rw [skipWs_space, skipWs_dumpVal]
    rw [parseVal_dumpVal kv.2 (',' :: ' ' :: (dumpMembers (kv2 :: m') ++ ('\x7d' :: rest)))
        (headNotDigit_cons _ _ (by decide))]
    simp only [obind_some]
    rw [show skipWs (',' :: ' ' :: (dumpMembers (kv2 :: m') ++ ('\x7d' :: rest)))
          = ',' :: ' ' :: (dumpMembers (kv2 :: m') ++ ('\x7d' :: rest)) from
        skipWs_cons_notws _ _ (by decide)]
    rw [parseAfterValue_comma]
    rw [skipWs_space, skipWs_dumpMembers]
    rw [ih kv2 f rest (by simp at hf ⊢; omega)]
    rfl

theorem one_le_length_dumpMember (kv : List Char × Jprim) : 1 ≤ (dumpMember kv).length := by
  simp only [dumpMember, dumpStr, List.length_append, List.length_cons]
  omega

theorem length_dumpMembers (m : List (List Char × Jprim)) :
    ∀ kv, (kv :: m).length ≤ (dumpMembers (kv :: m)).length := by
  induction m with
  | nil =>
    intro kv
    simpa using one_le_length_dumpMember kv
  | cons kv2 m' ih =>
    intro kv
    rw [show dumpMembers (kv :: kv2 :: m')
          = dumpMember kv ++ (',' :: ' ' :: dumpMembers (kv2 :: m')) from rfl]
    have h1 := one_le_length_dumpMember kv
    have h2 := ih kv2
    simp only [List.length_append, List.length_cons] at h2 ⊢
    omega

theorem dumpMembers_cons_head (kv : List Char × Jprim) (m : List (List Char × Jprim))
    (l : List Char) : ∃ T, dumpMembers (kv :: m) ++ l = '"' :: T := by
  cases m with
  | nil => exact ⟨_, rfl⟩
  | cons kv2 m' => exact ⟨_, rfl⟩

theorem parseObjBody_dumpMembers (kv : List Char × Jprim) (m : List (List Char × Jprim))
    (rest : List Char) :
    parseObjBody (dumpMembers (kv :: m) ++ ('\x7d' :: rest)) = some (kv :: m, rest) := by
  unfold parseObjBody
  rw [skipWs_dumpMembers]
  obtain ⟨T, hT⟩ := dumpMembers_cons_head kv m ('\x7d' :: rest)
  rw [hT]
  rw [show parseObjBodyW ('"' :: T) = parseMembers (('"' :: T).length + 1) ('"' :: T) from rfl]
  rw [← hT]
  apply parseMembers_dump m kv _ rest
  have h1 := length_dumpMembers m kv
  simp only [List.length_append, List.length_cons] at h1 ⊢
  omega

theorem pyJsonLoads_dumpObj (m : List (List Char × Jprim)) :
    pyJsonLoads (pyJsonDumpObj m) = some (.obj (dictFromPairs m)) := by
  cases m with
  | nil => rfl
  | cons kv m' =>
    show pyJsonLoadsW (skipWs ('\x7b' :: (dumpMembers (kv :: m') ++ ['\x7d']))) = _
    rw [show skipWs ('\x7b' :: (dumpMembers (kv :: m') ++ ['\x7d']))
          = '\x7b' :: (dumpMembers (kv :: m') ++ ['\x7d']) from skipWs_cons_notws _ _ (by decide)]
    have hobj := parseObjBody_dumpMembers kv m' []
    show (match parseObjBody (dumpMembers (kv :: m') ++ ['\x7d']) with
          | some (ms, r) => if skipWs r = [] then some (PyJson.obj (dictFromPairs ms)) else none
          | none => none) = _
    rw [hobj]
    rfl

theorem dictInsert_notmem (m : List (List Char × Jprim)) (k : List Char) (v : Jprim)
    (h : k ∉ pyKeys m) : dictInsert m k v = m ++ [(k, v)] := by
  induction m with
  | nil => rfl
  | cons kv t ih =>
    simp only [pyKeys, List.map_cons, List.mem_cons] at h
    push_neg at h
    rw [dictInsert, if_neg (fun he => h.1 he.symm)]
    rw [ih h.2]
    rfl

theorem foldl_dictInsert (ps : List (List Char × Jprim)) :
    ∀ acc, (pyKeys acc ++ pyKeys ps).Nodup →
      ps.foldl (fun m kv => dictInsert m kv.1 kv.2) acc = acc ++ ps := by
  induction ps with
  | nil =>
    intro acc _
    simp
  | cons kv t ih =>
    intro acc h
    rw [List.foldl_cons]
    simp only [pyKeys, List.map_cons] at h
    rcases List.nodup_append.mp h with ⟨h1, h2, hdisj⟩
    have hk : kv.1 ∉ pyKeys acc := fun hm => (hdisj hm) (List.mem_cons_self _ _)
    rw [dictInsert_notmem acc kv.1 kv.2 hk]
    rw [ih (acc ++ [(kv.1, kv.2)]) (by
      simp only [pyKeys, List.map_append, List.map_cons, List.map_nil] at h ⊢
      simpa [List.append_assoc] using h)]
    simp

theorem dictFromPairs_nodup (ps : List (List Char × Jprim)) (h : (pyKeys ps).Nodup) :
    dictFromPairs ps = ps := by
  have := foldl_dictInsert ps [] (by simpa [pyKeys] using h)
  simpa [dictFromPairs] using this

theorem pyJsonLoads_dumpObj_nodup (m : List (List Char × Jprim)) (h : (pyKeys m).Nodup) :
    pyJsonLoads (pyJsonDumpObj m) = some (.obj m) := by
  rw [pyJsonLoads_dumpObj, dictFromPairs_nodup m h]

/-! ## Token service (main.py create_upload_token / verify_upload_token).
python-jose JWTs are modelled as a tagged, length-prefixed rendering of the
claims dict carrying the signing key in place of the HMAC signature:
`jwt.decode` succeeds exactly when the verifying key equals the signing key,
and rejects expired tokens (`exp < now`, no leeway, as in
`jose.jwt._validate_exp`).  Times are Unix seconds. -/

structure TokenPayload where
  sub : Option String
  exp : Nat
  ptype : Option String
deriving DecidableEq

def lenPref (s : List Char) : List Char := natToChars s.length ++ (':' :: s)

def encOptStr : Option String → List Char
  | none => ['n']
  | some s => 's' :: lenPref s.data

def jwtEncode (p : TokenPayload) (key : String) : String :=
  String.mk ('j' :: 'w' :: 't' :: '.' ::
    (lenPref key.data ++ (natToChars p.exp ++ (':' :: (encOptStr p.sub ++ encOptStr p.ptype)))))

def takeExact {α : Type} : Nat → List α → Option (List α × List α)
  | 0, l => some ([], l)
  | _ + 1, [] => none
  | n + 1, c :: cs => (takeExact n cs).map (fun pr => (c :: pr.1, pr.2))

def parseNatColon (l : List Char) : Option (Nat × List Char) :=
  match takeDigits l 0 with
  | (n, ':' :: r2) => some (n, r2)
  | _ => none

def parseLenPref (l : List Char) : Option (List Char × List Char) :=
  (parseNatColon l).bind fun nr => takeExact nr.1 nr.2

def parseOptStr : List Char → Option (Option String × List Char)
  | 'n' :: r => some (none, r)
  | 's' :: r => (parseLenPref r).map (fun pr => (some (String.mk pr.1), pr.2))
  | _ => none

def jwtParse (tok : String) : Option (String × TokenPayload) :=
  match tok.data with
  | 'j' :: 'w' :: 't' :: '.' :: r =>
    (parseLenPref r).bind fun keyr =>
      (parseNatColon keyr.2).bind fun er =>
        (parseOptStr er.2).bind fun subr =>
          (parseOptStr subr.2).bind fun typr =>
            if typr.2 = [] then
              some (String.mk keyr.1, { sub := subr.1, exp := er.1, ptype := typr.1 })
            else none
  | _ => none

inductive JwtError where
  | malformed
  | badSignature
  | expired
deriving DecidableEq

/-- jose.jwt.decode with signature verification and expiry validation -/
def jwtDecode (tok : String) (key : String) (now : Nat) : Except JwtError TokenPayload :=
  match jwtParse tok with
  | none => .error .malformed
  | some (k, p) =>
    if k ≠ key then .error .badSignature
    else if p.exp < now then .error .expired
    else .ok p

theorem takeExact_append {α : Type} (s rest : List α) :
    takeExact s.length (s ++ rest) = some (s, rest) := by
  induction s with
  | nil => rfl
  | cons c cs ih =>
    show (takeExact cs.length (cs ++ rest)).map _ = _
    rw [ih]
    rfl

theorem parseNatColon_digits (n : Nat) (tail : List Char) :
    parseNatColon (natToChars n ++ (':' :: tail)) = some (n, tail) := by
  show (match takeDigits (natToChars n ++ (':' :: tail)) 0 with
        | (n, ':' :: r2) => some (n, r2)
        | _ => none) = some (n, tail)
  rw [takeDigits_natToChars n (':' :: tail) (headNotDigit_cons _ _ (by decide))]
  rfl

theorem parseLenPref_lenPref (s rest : List Char) :
    parseLenPref (lenPref s ++ rest) = some (s, rest) := by
  unfold parseLenPref
  have hshape : lenPref s ++ rest = natToChars s.length ++ (':' :: (s ++ rest)) := by
    rw [lenPref]
    simp [List.append_assoc]
  rw [hshape, parseNatColon_digits]
  simp only [obind_some]
  exact takeExact_append s rest

theorem parseOptStr_encOptStr (o : Option String) (rest : List Char) :
    parseOptStr (encOptStr o ++ rest) = some (o, rest) := by
  cases o with
  | none => rfl
  | some s =>
    show (parseLenPref (lenPref s.data ++ rest)).map _ = _
    rw [parseLenPref_lenPref]
    rfl

theorem jwtParse_jwtEncode (p : TokenPayload) (key : String) :
    jwtParse (jwtEncode p key) = some (key, p) := by
  show ((parseLenPref (lenPref key.data ++
      (natToChars p.exp ++ (':' :: (encOptStr p.sub ++ encOptStr p.ptype))))).bind fun keyr =>
      (parseNatColon keyr.2).bind fun er =>
        (parseOptStr er.2).bind fun subr =>
          (parseOptStr subr.2).bind fun typr =>
            if typr.2 = [] then
              some (String.mk keyr.1, { sub := subr.1, exp := er.1, ptype := typr.1 })
            else none) = some (key, p)
  rw [parseLenPref_lenPref]
  simp only [obind_some]
  rw [parseNatColon_digits]
  simp only [obind_some]
  rw [parseOptStr_encOptStr]
  simp only [obind_some]
  rw [show encOptStr p.ptype = encOptStr p.ptype ++ [] from (List.append_nil _).symm,
      parseOptStr_encOptStr]
  rfl

theorem jwtDecode_jwtEncode (p : TokenPayload) (key : String) (now : Nat) :
    jwtDecode (jwtEncode p key) key now
      = if p.exp < now then .error .expired else .ok p := by
  unfold jwtDecode
  rw [jwtParse_jwtEncode]
  show (if key ≠ key then Except.error JwtError.badSignature
        else if p.exp < now then Except.error JwtError.expired else Except.ok p) = _
  rw [if_neg (by simp)]

/-! ## Settings (config.py), error taxonomy, token service endpoints -/

/-- config.Settings: immutable configuration loaded once at startup -/
structure Settings where
  database_url : String
  r2_access_key_id : String
  r2_secret_access_key : String
  r2_endpoint_url : String
  r2_bucket_name : String
  r2_public_url : String
  jwt_secret_key : String
  jwt_algorithm : String
  upload_token_expire_minutes : Nat
  max_upload_size_mb : Nat
  allowed_video_extensions : List String
  base_url : String

/-- the HTTPException outcomes raised by main.py, by site -/
inductive HErr where
  | invalidToken
  | tokenMismatch
  | invalidFileType
  | uploadFailed
  | duplicateId
  | notFound
  | typeError
deriving DecidableEq

/-- main.create_upload_token: JWT with sub, exp = now + ttl minutes, type "upload" -/
def create_upload_token (cfg : Settings) (username : String) (now : Nat) : String :=
  jwtEncode { sub := some username,
              exp := now + cfg.upload_token_expire_minutes * 60,
              ptype := some "upload" } cfg.jwt_secret_key

/-- main.verify_upload_token: decode, then check sub presence and type claim -/
def verify_upload_token (cfg : Settings) (token : String) (now : Nat) : Except HErr String :=
  match jwtDecode token cfg.jwt_secret_key now with
  | .error _ => .error .invalidToken
  | .ok payload =>
    match payload.sub with
    | none => .error .invalidToken
    | some username =>
      if payload.ptype ≠ some "upload" then .error .invalidToken
      else .ok username

/-! ## Python string helpers used by main.upload_clip -/

/-- Python truthiness of a str: non-empty -/
def pyTruthy (s : String) : Bool := !s.data.isEmpty

def leadsWith : List Char → List Char → Bool
  | [], _ => true
  | _ :: _, [] => false
  | p :: ps, c :: cs => p = c && leadsWith ps cs

/-- Python str.startswith -/
def pyStartswith (s pre : String) : Bool := leadsWith pre.data s.data

/-- Python str.replace: replace every non-overlapping occurrence left to
right (fuel-bounded; the repository only replaces the non-empty "Bearer ") -/
def pyReplaceAux (old new : List Char) : Nat → List Char → List Char
  | _, [] => []
  | 0, l => l
  | fuel + 1, c :: cs =>
    if leadsWith old (c :: cs) && !old.isEmpty then
      new ++ pyReplaceAux old new fuel ((c :: cs).drop old.length)
    else
      c :: pyReplaceAux old new fuel cs

def pyReplace (s old new : String) : String :=
  String.mk (pyReplaceAux old.data new.data s.data.length s.data)

/-- Python str.lower restricted to ASCII case mapping; the extension
comparison in upload_clip only involves ASCII extension strings -/
def pyLower (s : String) : String := String.mk (s.data.map Char.toLower)

/-- CPython str.rfind for a single character: index of last occurrence, -1
when absent -/
def rfindC : List Char → Char → Int
  | [], _ => -1
  | x :: xs, c =>
    if rfindC xs c ≥ 0 then rfindC xs c + 1
    else if x = c then 0 else -1

/-- extension part of CPython posixpath.splitext(p): the suffix of p from its
last dot, unless the basename up to that dot consists only of dots -/
def splitextExt (p : List Char) : List Char :=
  if rfindC p '/' < rfindC p '.' then
    if ((p.drop (rfindC p '/' + 1).toNat).take
        (rfindC p '.' - (rfindC p '/' + 1)).toNat).any (fun c => c ≠ '.') then
      p.drop (rfindC p '.').toNat
    else []
  else []

/-! ## Metadata store (database.py) over a keyed table model -/

/-- one row of the clips table (SCHEMA_SQL); settings is the serialized TEXT
column -/
structure ClipRow where
  id : String
  owner : String
  filename : String
  storage_path : String
  duration_seconds : Option Int
  file_size_bytes : Option Int
  resolution : Option String
  fps : Option Int
  bitrate_kbps : Option Int
  thumbnail_path : Option String
  created_at : Nat
  views : Nat
  settings : Option (List Char)
deriving DecidableEq

abbrev DbMap := String → Option ClipRow

/-- the clip_data dict built by main.upload_clip and consumed by insert_clip -/
structure ClipData where
  id : String
  owner : String
  filename : String
  storage_path : String
  duration : Option Int
  file_size : Option Int
  resolution : Option String
  fps : Option Int
  bitrate : Option Int
  settings : List (List Char × Jprim)

/-- the row INSERT writes: media hints as given, created_at from the clock,
views 0, thumbnail NULL, settings serialized with json.dumps -/
def insertedRow (clip_data : ClipData) (now : Nat) : ClipRow :=
  { id := clip_data.id, owner := clip_data.owner,
    filename := clip_data.filename, storage_path := clip_data.storage_path,
    duration_seconds := clip_data.duration,
    file_size_bytes := clip_data.file_size,
    resolution := clip_data.resolution, fps := clip_data.fps,
    bitrate_kbps := clip_data.bitrate, thumbnail_path := none,
    created_at := now, views := 0,
    settings := some (pyJsonDumpObj clip_data.settings) }

/-- database.insert_clip: INSERT with json.dumps(settings); a duplicate
primary key raises an integrity error (PersistenceError), which
main.upload_clip does not catch -/
def insert_clip (db : DbMap) (clip_data : ClipData) (now : Nat) : Except HErr DbMap :=
  if (db clip_data.id).isSome then .error .duplicateId
  else
    .ok (fun x => if x = clip_data.id then some (insertedRow clip_data now) else db x)

/-- the settings entry of the dict returned by database.get_clip: left as the
raw column value when falsy, otherwise replaced by the json.loads result -/
inductive SettingsField where
  | raw (s : Option (List Char)) : SettingsField
  | parsed (j : PyJson) : SettingsField
  | loadError : SettingsField
deriving DecidableEq

/-- the dict returned by database.get_clip for one row -/
structure PyClip where
  id : String
  owner : String
  filename : String
  storage_path : String
  duration_seconds : Option Int
  file_size_bytes : Option Int
  resolution : Option String
  fps : Option Int
  bitrate_kbps : Option Int
  thumbnail_path : Option String
  created_at : Nat
  views : Nat
  settings : SettingsField
deriving DecidableEq

/-- the settings entry get_clip builds from the stored column: the raw value
when falsy (NULL or empty text), else the json.loads result -/
def settingsOfColumn : Option (List Char) → SettingsField
  | none => .raw none
  | some s =>
    if s ≠ [] then
      match pyJsonLoads s with
      | some j => .parsed j
      | none => .loadError
    else .raw (some s)

/-- database.get_clip: SELECT by id; None when absent; parses the settings
column back to a dict when the stored text is truthy -/
def get_clip (db : DbMap) (clip_id : String) : Option PyClip :=
  match db clip_id with
  | none => none
  | some row =>
    some { id := row.id, owner := row.owner, filename := row.filename,
           storage_path := row.storage_path, duration_seconds := row.duration_seconds,
           file_size_bytes := row.file_size_bytes, resolution := row.resolution,
           fps := row.fps, bitrate_kbps := row.bitrate_kbps,
           thumbnail_path := row.thumbnail_path, created_at := row.created_at,
           views := row.views,
           settings := settingsOfColumn row.settings }

/-- database.increment_views: UPDATE clips SET views = views + 1 WHERE id = ?;
a no-op when the id does not exist -/
def increment_views (db : DbMap) (clip_id : String) : DbMap :=
  fun x => if x = clip_id then (db x).map (fun r => { r with views := r.views + 1 }) else db x

/-! ## Object storage client (storage.py) and backend state -/

/-- storage.get_public_url: pure concatenation, no network call -/
def get_public_url (cfg : Settings) (object_key : String) : String :=
  cfg.r2_public_url ++ "/" ++ object_key

/-- mutable backend state: the clips table and the keys stored in the blob
store (storage.upload_fileobj adds a key; its transport failure is an
explicit input of the workflow) -/
structure St where
  clips : DbMap
  blobs : List String

/-! ## Upload workflow and watch page renderer (main.py) -/

/-- the f-string of main.watch_clip lines 134-229, with each
interpolated field passed in already formatted -/
def watchHtml (cfg : Settings) (owner filename durStr viewsStr resStr fpsStr
    video_url clip_id : String) : String :=
  "<!DOCTYPE html>\n<html>\n<head>\n    <meta charset=\"UTF-8\">\n    <meta name=\"viewport\" content=\"width=device-width, initial-scale=1.0\">\n    <title>"
  ++ owner
  ++ "\x27s Clip</title>\n    \n    <!-- Discord/Twitter embed tags -->\n    <meta property=\"og:type\" content=\"video.other\">\n    <meta property=\"og:title\" content=\""
  ++ owner
  ++ "\x27s Game Clip\">\n    <meta property=\"og:description\" content=\""
  ++ filename
  ++ " • "
  ++ durStr
  ++ "s • "
  ++ viewsStr
  ++ " views\">\n    <meta property=\"og:url\" content=\""
  ++ cfg.base_url
  ++ "/watch/"
  ++ clip_id
  ++ "\">\n    <meta property=\"og:video\" content=\""
  ++ video_url
  ++ "\">\n    <meta property=\"og:video:url\" content=\""
  ++ video_url
  ++ "\">\n    <meta property=\"og:video:secure_url\" content=\""
  ++ video_url
  ++ "\">\n    <meta property=\"og:video:type\" content=\"video/mp4\">\n    <meta property=\"og:video:width\" content=\"1920\">\n    <meta property=\"og:video:height\" content=\"1080\">\n    <meta name=\"twitter:card\" content=\"player\">\n    <meta name=\"twitter:player\" content=\""
  ++ video_url
  ++ "\">\n    <meta name=\"twitter:player:width\" content=\"1920\">\n    <meta name=\"twitter:player:height\" content=\"1080\">\n    \n    <style>\n        * \x7b margin: 0; padding: 0; box-sizing: border-box; \x7d\n        body \x7b\n            background: #0e0e10;\n            color: #efeff1;\n            font-family: -apple-system, BlinkMacSystemFont, \"Segoe UI\", Roboto, sans-serif;\n            display: flex;\n            justify-content: center;\n            align-items: center;\n            min-height: 100vh;\n            padding: 20px;\n        \x7d\n        .container \x7b max-width: 1400px; width: 100%; \x7d\n        video \x7b\n            width: 100%;\n            background: #000;\n            border-radius: 8px;\n            box-shadow: 0 8px 32px rgba(0,0,0,0.5);\n        \x7d\n        .info \x7b\n            margin-top: 20px;\n            padding: 20px;\n            background: #18181b;\n            border-radius: 8px;\n        \x7d\n        .info h2 \x7b margin: 0 0 10px 0; color: #fff; \x7d\n        .stats \x7b color: #adadb8; font-size: 14px; margin-bottom: 15px; \x7d\n        .copy-btn \x7b\n            padding: 12px 24px;\n            background: #9147ff;\n            color: white;\n            border: none;\n            border-radius: 6px;\n            cursor: pointer;\n            font-size: 14px;\n            font-weight: 600;\n            transition: background 0.2s;\n        \x7d\n        .copy-btn:hover \x7b background: #772ce8; \x7d\n        .copy-btn.copied \x7b background: #00c853; \x7d\n    </style>\n</head>\n<body>\n    <div class=\"container\">\n        <video controls autoplay muted loop>\n            <source src=\""
  ++ video_url
  ++ "\" type=\"video/mp4\">\n        </video>\n        <div class=\"info\">\n            <h2>"
  ++ filename
  ++ "</h2>\n            <div class=\"stats\">\n                By <strong>"
  ++ owner
  ++ "</strong> • \n                "
  ++ durStr
  ++ "s • \n                "
  ++ resStr
  ++ " @ "
  ++ fpsStr
  ++ "fps • \n                "
  ++ viewsStr
  ++ " views\n            </div>\n            <button class=\"copy-btn\" onclick=\"copyLink()\">📋 Copy Link</button>\n        </div>\n    </div>\n    <script>\n        function copyLink() \x7b\n            navigator.clipboard.writeText(window.location.href).then(() => \x7b\n                const btn = document.querySelector(\x27.copy-btn\x27);\n                btn.textContent = \x27✓ Copied!\x27;\n                btn.classList.add(\x27copied\x27);\n                setTimeout(() => \x7b\n                    btn.textContent = \x27📋 Copy Link\x27;\n                    btn.classList.remove(\x27copied\x27);\n                \x7d, 2000);\n            \x7d);\n        \x7d\n    </script>\n</body>\n</html>"

structure UploadFileInfo where
  filename : String
  size : Option Int
deriving DecidableEq

structure UploadResp where
  link : String
  clip_id : String
  storage_url : String
deriving DecidableEq

/-- the optional token gate at the top of main.upload_clip: verify the token
only when an Authorization header is present, truthy, and starts with
"Bearer "; reject on verification failure or username mismatch -/
def authGate (cfg : Settings) (authorization : Option String) (username : String)
    (now : Nat) : Option HErr :=
  match authorization with
  | none => none
  | some h =>
    if pyTruthy h && pyStartswith h "Bearer " then
      match verify_upload_token cfg (pyReplace h "Bearer " "") now with
      | .error _ => some .invalidToken
      | .ok token_user => if token_user ≠ username then some .tokenMismatch else none
    else none

/-- the object key clips/{username}/{clip_id}{ext} -/
def objectKeyOf (username clip_id file_ext : String) : String :=
  "clips/" ++ username ++ "/" ++ clip_id ++ file_ext

/-- steps 3-7 of main.upload_clip after validation: upload the blob (may
fail), then insert the metadata row (an uncaught integrity error surfaces) -/
def upload_clip_store (cfg : Settings) (st : St) (file : UploadFileInfo) (username : String)
    (duration : Option Int) (resolution : Option String) (fps : Option Int)
    (bitrate : Option Int) (now : Nat) (clip_id : String) (uploadOk : Bool) :
    Except HErr UploadResp × St :=
  if !uploadOk then (.error .uploadFailed, st)
  else
    match insert_clip st.clips
        { id := clip_id, owner := username, filename := file.filename,
          storage_path := objectKeyOf username clip_id
            (pyLower (String.mk (splitextExt file.filename.data))),
          duration := duration, file_size := file.size,
          resolution := resolution, fps := fps, bitrate := bitrate,
          settings := [] } now with
    | .error e =>
      (.error e,
       { st with blobs :=
          (objectKeyOf username clip_id (pyLower (String.mk (splitextExt file.filename.data))))
            :: st.blobs })
    | .ok clips2 =>
      (.ok { link := cfg.base_url ++ "/watch/" ++ clip_id, clip_id := clip_id,
             storage_url := get_public_url cfg (objectKeyOf username clip_id
               (pyLower (String.mk (splitextExt file.filename.data)))) },
       { clips := clips2, blobs :=
          (objectKeyOf username clip_id (pyLower (String.mk (splitextExt file.filename.data))))
            :: st.blobs })

/-- main.upload_clip after the token gate: extension validation, then storage -/
def upload_clip_checked (cfg : Settings) (st : St) (file : UploadFileInfo) (username : String)
    (duration : Option Int) (resolution : Option String) (fps : Option Int)
    (bitrate : Option Int) (now : Nat) (clip_id : String) (uploadOk : Bool) :
    Except HErr UploadResp × St :=
  if pyLower (String.mk (splitextExt file.filename.data)) ∉ cfg.allowed_video_extensions then
    (.error .invalidFileType, st)
  else
    upload_clip_store cfg st file username duration resolution fps bitrate now clip_id uploadOk

/-- main.upload_clip.  External effects are explicit inputs: `now` the wall
clock, `clip_id` the value nanoid.generate(size=12) produced, `uploadOk`
whether the object-store upload succeeds.  Returns the HTTP outcome and the
post-state. -/
def upload_clip (cfg : Settings) (st : St) (file : UploadFileInfo) (username : String)
    (duration : Option Int) (resolution : Option String) (fps : Option Int)
    (bitrate : Option Int) (authorization : Option String) (now : Nat)
    (clip_id : String) (uploadOk : Bool) : Except HErr UploadResp × St :=
  match authGate cfg authorization username now with
  | some e => (.error e, st)
  | none =>
    upload_clip_checked cfg st file username duration resolution fps bitrate now clip_id uploadOk

/-- Python str(x) for an optional int interpolated by an f-string -/
def pyShowOptInt : Option Int → String
  | none => "None"
  | some n => String.mk (intToChars n)

/-- Python str(x) for an optional str interpolated by an f-string -/
def pyShowOptStr : Option String → String
  | none => "None"
  | some s => s

/-- Python format(x, ".1f") on an integer-valued duration; on None the
f-string raises TypeError (unsupported format string for NoneType) -/
def pyFormat1f : Option Int → Except HErr String
  | none => .error .typeError
  | some n => .ok (String.mk (intToChars n) ++ ".0")

/-- evaluation of the watch-page f-string for one clip dict: fails with the
TypeError of formatting a NULL duration, otherwise yields the document -/
def render_watch_html (cfg : Settings) (clip : PyClip) (video_url clip_id : String) :
    Except HErr String :=
  match pyFormat1f clip.duration_seconds with
  | .error e => .error e
  | .ok durStr =>
    .ok (watchHtml cfg clip.owner clip.filename durStr
          (String.mk (natToChars clip.views)) (pyShowOptStr clip.resolution)
          (pyShowOptInt clip.fps) video_url clip_id)

/-- main.watch_clip: look up the clip (404 when absent), increment its view
counter, then build the HTML document -/
def watch_clip (cfg : Settings) (st : St) (clip_id : String) : Except HErr String × St :=
  match get_clip st.clips clip_id with
  | none => (.error .notFound, st)
  | some clip =>
    let st1 : St := { st with clips := increment_views st.clips clip_id }
    let video_url := get_public_url cfg clip.storage_path
    (render_watch_html cfg clip video_url clip_id, st1)

/-- main.get_clip_metadata: the same record as a structured result, or 404 -/
def get_clip_metadata (st : St) (clip_id : String) : Except HErr PyClip :=
  match get_clip st.clips clip_id with
  | none => .error .notFound
  | some clip => .ok clip

instance {ε α : Type} [DecidableEq ε] [DecidableEq α] : DecidableEq (Except ε α)
  | .error a, .error b =>
    if h : a = b then .isTrue (by rw [h]) else .isFalse (fun hc => h (Except.error.inj hc))
  | .error _, .ok _ => .isFalse (fun hc => Except.noConfusion hc)
  | .ok _, .error _ => .isFalse (fun hc => Except.noConfusion hc)
  | .ok a, .ok b =>
    if h : a = b then .isTrue (by rw [h]) else .isFalse (fun hc => h (Except.ok.inj hc))

/-- Bool-valued substring search, used to inspect rendered documents -/
def containsSeq (pat : List Char) : List Char → Bool
  | [] => pat.isEmpty
  | c :: cs => leadsWith pat (c :: cs) || containsSeq pat cs

/-- the document of a successful render, empty on failure -/
def htmlOf : Except HErr String → String
  | .ok h => h
  | .error _ => ""

/-! ## The exposed operations of the service as state transformers, for
whole-history invariants.  Read-only endpoints (metadata, per-owner listing,
token issuance, root info) leave the state unchanged; get_user_clips is a
SELECT with no writes. -/

inductive Op where
  | upload (file : UploadFileInfo) (username : String) (duration : Option Int)
      (resolution : Option String) (fps : Option Int) (bitrate : Option Int)
      (authorization : Option String) (now : Nat) (clip_id : String) (uploadOk : Bool) : Op
  | watch (clip_id : String) : Op
  | getMeta (clip_id : String) : Op
  | listClips (username : String) (limit : Nat) : Op
  | authToken (username : String) (now : Nat) : Op
  | rootInfo : Op

def applyOp (cfg : Settings) (st : St) : Op → St
  | .upload file username duration resolution fps bitrate authorization now clip_id uploadOk =>
    (upload_clip cfg st file username duration resolution fps bitrate authorization now
      clip_id uploadOk).2
  | .watch clip_id => (watch_clip cfg st clip_id).2
  | .getMeta _ => st
  | .listClips _ _ => st
  | .authToken _ _ => st
  | .rootInfo => st

def applyOps (cfg : Settings) (st : St) (ops : List Op) : St :=
  ops.foldl (applyOp cfg) st

def bumpViews (r : ClipRow) : ClipRow := { r with views := r.views + 1 }

theorem insert_clip_ok_lookup (db : DbMap) (d : ClipData) (now : Nat) (db' : DbMap)
    (hok : insert_clip db d now = .ok db') (id : String) (row : ClipRow)
    (h : db id = some row) : db' id = some row := by
  unfold insert_clip at hok
  by_cases hs : (db d.id).isSome
  · rw [if_pos hs] at hok
    exact absurd hok (by simp)
  · rw [if_neg hs] at hok
    injection hok with hfn
    by_cases hid : id = d.id
    · subst hid
      rw [h] at hs
      exact absurd rfl hs
    · subst hfn
      simp only [hid, if_false]
      exact h

theorem upload_clip_clips_pres (cfg : Settings) (st : St) (file : UploadFileInfo)
    (username : String) (duration : Option Int) (resolution : Option String)
    (fps : Option Int) (bitrate : Option Int) (authorization : Option String)
    (now : Nat) (clip_id : String) (uploadOk : Bool) (id : String) (row : ClipRow)
    (h : st.clips id = some row) :
    ((upload_clip cfg st file username duration resolution fps bitrate authorization now
      clip_id uploadOk).2).clips id = some row := by
  unfold upload_clip upload_clip_checked upload_clip_store
  split
  · exact h
  · split
    · exact h
    · split
      · exact h
      · split
        · exact h
        · next clips2 heq => exact insert_clip_ok_lookup st.clips _ now clips2 heq id row h

theorem watch_clip_clips (cfg : Settings) (st : St) (cid id : String) (row : ClipRow)
    (h : st.clips id = some row) :
    ((watch_clip cfg st cid).2).clips id = some row ∨
    (cid = id ∧ ((watch_clip cfg st cid).2).clips id = some (bumpViews row)) := by
  unfold watch_clip
  split
  · left; exact h
  · by_cases hid : id = cid
    · subst hid
      right
      refine ⟨rfl, ?_⟩
      show increment_views st.clips id id = some (bumpViews row)
      unfold increment_views
      rw [if_pos rfl, h]
      rfl
    · left
      show increment_views st.clips cid id = some row
      unfold increment_views
      rw [if_neg hid]
      exact h

theorem applyOp_clips (cfg : Settings) (st : St) (op : Op) (id : String) (row : ClipRow)
    (h : st.clips id = some row) :
    (applyOp cfg st op).clips id = some row ∨
    (op = Op.watch id ∧ (applyOp cfg st op).clips id = some (bumpViews row)) := by
  cases op with
  | upload file username duration resolution fps bitrate authorization now clip_id uploadOk =>
    left
    exact upload_clip_clips_pres cfg st file username duration resolution fps bitrate
      authorization now clip_id uploadOk id row h
  | watch cid =>
    rcases watch_clip_clips cfg st cid id row h with h1 | ⟨hcid, h1⟩
    · left; exact h1
    · right; exact ⟨by rw [hcid], h1⟩
  | getMeta c => left; exact h
  | listClips u l => left; exact h
  | authToken u n => left; exact h
  | rootInfo => left; exact h

theorem applyOps_clips (cfg : Settings) (ops : List Op) :
    ∀ st id row, st.clips id = some row →
      ∃ row', (applyOps cfg st ops).clips id = some row' ∧
        row'.id = row.id ∧ row'.owner = row.owner ∧ row'.filename = row.filename ∧
        row'.storage_path = row.storage_path ∧ row'.created_at = row.created_at ∧
        row.views ≤ row'.views := by
  induction ops with
  | nil =>
    intro st id row h
    exact ⟨row, h, rfl, rfl, rfl, rfl, rfl, Nat.le_refl _⟩
  | cons op ops ih =>
    intro st id row h
    rcases applyOp_clips cfg st op id row h with h1 | ⟨_, h1⟩
    · obtain ⟨row', hr⟩ := ih (applyOp cfg st op) id row h1
      exact ⟨row', hr⟩
    · obtain ⟨row', hcl, hid, how, hfn, hsp, hca, hv⟩ := ih (applyOp cfg st op) id
        (bumpViews row) h1
      refine ⟨row', hcl, hid, how, hfn, hsp, hca, ?_⟩
      simp only [bumpViews] at hv
      omega

/-! ## Concrete fixtures for evaluated statements -/

def cfgA : Settings :=
  { database_url := "sqlite:///./clips.db", r2_access_key_id := "AK",
    r2_secret_access_key := "SK", r2_endpoint_url := "https://e.example",
    r2_bucket_name := "game-clips", r2_public_url := "https://cdn.example",
    jwt_secret_key := "secret", jwt_algorithm := "HS256",
    upload_token_expire_minutes := 15, max_upload_size_mb := 500,
    allowed_video_extensions := [".mp4", ".mkv", ".webm"],
    base_url := "http://localhost:8000" }

def emptySt : St := { clips := fun _ => none, blobs := [] }

/-- state after a successful upload whose owner field carries HTML markup -/
def stC1 : St :=
  (upload_clip cfgA emptySt { filename := "pwn.mp4", size := some 100 }
    "<script>alert(1)</script>" (some 3) none none none none 1000 "abcdefghijkl" true).2

/-- state after a successful upload that supplied no duration hint, so the
stored duration_seconds column is NULL -/
def stC2 : St :=
  (upload_clip cfgA emptySt { filename := "clip.mp4", size := some 5 }
    "alice" none none none none none 1000 "aaaaaaaaaaaa" true).2

/-! ## Gate characterization lemmas -/

/-- the token gate lets a request through: header absent, header not a truthy
Bearer header, or a valid token for the declared username -/
def authPass (cfg : Settings) (authorization : Option String) (username : String)
    (now : Nat) : Prop :=
  match authorization with
  | none => True
  | some h => (pyTruthy h && pyStartswith h "Bearer ") = false
      ∨ verify_upload_token cfg (pyReplace h "Bearer " "") now = .ok username

theorem authGate_some (cfg : Settings) (h username : String) (now : Nat) :
    authGate cfg (some h) username now =
      (if pyTruthy h && pyStartswith h "Bearer " then
        match verify_upload_token cfg (pyReplace h "Bearer " "") now with
        | .error _ => some .invalidToken
        | .ok token_user => if token_user ≠ username then some .tokenMismatch else none
      else none) := rfl

theorem authGate_none (cfg : Settings) (authorization : Option String) (username : String)
    (now : Nat) (h : authPass cfg authorization username now) :
    authGate cfg authorization username now = none := by
  cases authorization with
  | none => rfl
  | some hd =>
    rw [authGate_some]
    rcases h with h | h
    · rw [h]
      rfl
    · cases hbv : (pyTruthy hd && pyStartswith hd "Bearer ") with
      | false => rfl
      | true =>
        rw [if_pos rfl, h]
        show (if username ≠ username then some HErr.tokenMismatch else none) = none
        rw [if_neg (by simp)]

theorem upload_clip_gate_none (cfg : Settings) (st : St) (file : UploadFileInfo)
    (username : String) (duration : Option Int) (resolution : Option String)
    (fps : Option Int) (bitrate : Option Int) (authorization : Option String)
    (now : Nat) (clip_id : String) (uploadOk : Bool)
    (hg : authGate cfg authorization username now = none) :
    upload_clip cfg st file username duration resolution fps bitrate authorization now
      clip_id uploadOk
      = upload_clip_checked cfg st file username duration resolution fps bitrate now
          clip_id uploadOk := by
  unfold upload_clip
  rw [hg]

/-! ## The claims -/

set_option maxRecDepth 100000 in
/-- C1: the claim states that every interpolated text field of the watch page
taken from the stored clip (in particular the attacker-controlled owner and
filename) is escaped against HTML markup, so the rendered page contains no
unescaped markup characters from those fields.  The code interpolates the
fields verbatim: for a stored clip whose owner is
"<script>alert(1)</script>" the rendered document contains that markup
unescaped (and no escaped form), refuting the claim on the code. -/
theorem c1_unescaped_owner_markup :
    (watch_clip cfgA stC1 "abcdefghijkl").1.isOk = true ∧
    containsSeq "<script>alert(1)</script>".data
      (htmlOf (watch_clip cfgA stC1 "abcdefghijkl").1).data = true ∧
    containsSeq "&lt;".data (htmlOf (watch_clip cfgA stC1 "abcdefghijkl").1).data = false := by
  decide

set_option maxRecDepth 100000 in
/-- C2: the claim states that renderWatchPage fails with NotFoundError exactly
when the clip is absent and otherwise (including when optional fields such as
duration_seconds are absent) increments the view counter and returns an HTML
document.  For an existing clip whose duration_seconds is NULL the code
raises TypeError while formatting None with ".1f" (clip.get returns the
stored None, not the default 0), so no document is produced, though the view
counter has already been incremented: the lookup succeeds, the result is the
TypeError, and the stored views went from 0 to 1. -/
theorem c2_absent_duration_render_crash :
    get_clip stC2.clips "aaaaaaaaaaaa" ≠ none ∧
    (watch_clip cfgA stC2 "aaaaaaaaaaaa").1 = .error .typeError ∧
    ((watch_clip cfgA stC2 "aaaaaaaaaaaa").2.clips "aaaaaaaaaaaa").map ClipRow.views
      = some 1 := by
  decide

theorem verify_create (cfg : Settings) (X : String) (t0 t : Nat) :
    verify_upload_token cfg (create_upload_token cfg X t0) t
      = if t0 + cfg.upload_token_expire_minutes * 60 < t then .error .invalidToken
        else .ok X := by
  unfold verify_upload_token create_upload_token
  rw [jwtDecode_jwtEncode]
  have hexp : (TokenPayload.mk (some X) (t0 + cfg.upload_token_expire_minutes * 60)
      (some "upload")).exp = t0 + cfg.upload_token_expire_minutes * 60 := rfl
  rw [hexp]
  by_cases h : t0 + cfg.upload_token_expire_minutes * 60 < t
  · rw [if_pos h, if_pos h]
  · rw [if_neg h, if_neg h]
    rfl

/-- C6: a token issued for identity X at time t0 verifies to X at any time
strictly before the configured TTL (upload_token_expire_minutes, in seconds)
has elapsed, and verification fails with the 401 authorization error at any
time strictly after the TTL has elapsed. -/
theorem c6_token_ttl_roundtrip (cfg : Settings) (X : String) (t0 t : Nat) :
    (t < t0 + cfg.upload_token_expire_minutes * 60 →
      verify_upload_token cfg (create_upload_token cfg X t0) t = .ok X)
    ∧ (t0 + cfg.upload_token_expire_minutes * 60 < t →
      verify_upload_token cfg (create_upload_token cfg X t0) t = .error .invalidToken) := by
  constructor
  · intro ht
    rw [verify_create, if_neg (by omega)]
  · intro ht
    rw [verify_create, if_pos ht]

/-- C6 witness: with the default 15-minute TTL, a token for "alice" issued at
time 0 verifies at time 1 and is rejected at time 10000 -/
theorem c6_token_ttl_roundtrip_witness :
    ((1 : Nat) < 0 + cfgA.upload_token_expire_minutes * 60 ∧
      verify_upload_token cfgA (create_upload_token cfgA "alice" 0) 1 = .ok "alice") ∧
    (0 + cfgA.upload_token_expire_minutes * 60 < 10000 ∧
      verify_upload_token cfgA (create_upload_token cfgA "alice" 0) 10000
        = .error .invalidToken) :=
  ⟨⟨by decide, (c6_token_ttl_roundtrip cfgA "alice" 0 1).1 (by decide)⟩,
   ⟨by decide, (c6_token_ttl_roundtrip cfgA "alice" 0 10000).2 (by decide)⟩⟩

/-- C3: when the token gate passes, a declared filename whose lower-cased
extension (os.path.splitext semantics) is not in the configured allow-set
makes submitClip fail with the 400 validation error, leaving the blob store
and the metadata store untouched; and a filename whose lower-cased extension
is in the set passes the extension check (the operation never fails with the
validation error). -/
theorem c3_extension_validation (cfg : Settings) (st : St) (file : UploadFileInfo)
    (username : String) (duration : Option Int) (resolution : Option String)
    (fps : Option Int) (bitrate : Option Int) (authorization : Option String)
    (now : Nat) (clip_id : String) (uploadOk : Bool)
    (hauth : authPass cfg authorization username now) :
    (pyLower (String.mk (splitextExt file.filename.data)) ∉ cfg.allowed_video_extensions →
      upload_clip cfg st file username duration resolution fps bitrate authorization now
        clip_id uploadOk = (.error .invalidFileType, st))
    ∧ (pyLower (String.mk (splitextExt file.filename.data)) ∈ cfg.allowed_video_extensions →
      (upload_clip cfg st file username duration resolution fps bitrate authorization now
        clip_id uploadOk).1 ≠ .error .invalidFileType) := by
  have hg := authGate_none cfg authorization username now hauth
  constructor
  · intro hno
    rw [upload_clip_gate_none cfg st file username duration resolution fps bitrate
        authorization now clip_id uploadOk hg]
    unfold upload_clip_checked
    rw [if_pos hno]
  · intro hyes hcontra
    rw [upload_clip_gate_none cfg st file username duration resolution fps bitrate
        authorization now clip_id uploadOk hg] at hcontra
    unfold upload_clip_checked at hcontra
    rw [if_neg (fun hn => hn hyes)] at hcontra
    unfold upload_clip_store at hcontra
    split at hcontra
    · simp at hcontra
    · split at hcontra
      · next e heq =>
        unfold insert_clip at heq
        split at heq
        · injection heq with he
          rw [← he] at hcontra
          simp at hcontra
        · simp at heq
      · simp at hcontra

/-- C3 witness: an unauthenticated submit of "evil.exe" is rejected with the
validation error and changes nothing; and ".mp4" passes the extension check -/
theorem c3_extension_validation_witness :
    authPass cfgA none "alice" 0 ∧
    (pyLower (String.mk (splitextExt ("evil.exe" : String).data))
      ∉ cfgA.allowed_video_extensions) ∧
    upload_clip cfgA emptySt { filename := "evil.exe", size := some 1 } "alice" none none
      none none none 0 "zzzzzzzzzzzz" true = (.error .invalidFileType, emptySt) ∧
    ((pyLower (String.mk (splitextExt ("ok.mp4" : String).data))
      ∈ cfgA.allowed_video_extensions) ∧
     (upload_clip cfgA emptySt { filename := "ok.mp4", size := some 1 } "alice" none none
       none none none 0 "zzzzzzzzzzzz" true).1 ≠ .error .invalidFileType) :=
  ⟨trivial, by decide,
   (c3_extension_validation cfgA emptySt { filename := "evil.exe", size := some 1 } "alice"
     none none none none none 0 "zzzzzzzzzzzz" true trivial).1 (by decide),
   ⟨by decide,
    (c3_extension_validation cfgA emptySt { filename := "ok.mp4", size := some 1 } "alice"
      none none none none none 0 "zzzzzzzzzzzz" true trivial).2 (by decide)⟩⟩

/-- C4: when the token gate passes and the extension is allowed, a failing
object-store upload aborts submitClip with the 500 upload error and the whole
state, in particular the metadata store, is unchanged: no clip record exists
for the generated id. -/
theorem c4_upload_failure_aborts (cfg : Settings) (st : St) (file : UploadFileInfo)
    (username : String) (duration : Option Int) (resolution : Option String)
    (fps : Option Int) (bitrate : Option Int) (authorization : Option String)
    (now : Nat) (clip_id : String) (uploadOk : Bool)
    (hauth : authPass cfg authorization username now)
    (hext : pyLower (String.mk (splitextExt file.filename.data))
      ∈ cfg.allowed_video_extensions)
    (hup : uploadOk = false) :
    upload_clip cfg st file username duration resolution fps bitrate authorization now
      clip_id uploadOk = (.error .uploadFailed, st) := by
  rw [upload_clip_gate_none cfg st file username duration resolution fps bitrate
      authorization now clip_id uploadOk (authGate_none cfg authorization username now hauth)]
  unfold upload_clip_checked
  rw [if_neg (fun hn => hn hext)]
  unfold upload_clip_store
  rw [hup]
  rfl

/-- C4 witness: an unauthenticated ".mp4" submit whose storage upload fails is
a 500 upload error with unchanged state -/
theorem c4_upload_failure_aborts_witness :
    authPass cfgA none "alice" 0 ∧
    (pyLower (String.mk (splitextExt ("a.mp4" : String).data))
      ∈ cfgA.allowed_video_extensions) ∧
    ((false : Bool) = false) ∧
    upload_clip cfgA emptySt { filename := "a.mp4", size := none } "alice" none none none
      none none 0 "yyyyyyyyyyyy" false = (.error .uploadFailed, emptySt) :=
  ⟨trivial, by decide, rfl,
   c4_upload_failure_aborts cfgA emptySt { filename := "a.mp4", size := none } "alice" none
     none none none none 0 "yyyyyyyyyyyy" false trivial (by decide) rfl⟩

theorem authGate_mismatch (cfg : Settings) (h username : String) (now : Nat) (x : String)
    (hb : pyStartswith h "Bearer " = true)
    (hv : verify_upload_token cfg (pyReplace h "Bearer " "") now = .ok x)
    (hx : x ≠ username) :
    authGate cfg (some h) username now = some .tokenMismatch := by
  have htr : pyTruthy h = true := by
    unfold pyStartswith at hb
    unfold pyTruthy
    cases hd : h.data with
    | nil =>
      rw [hd] at hb
      exact absurd hb (by decide)
    | cons c cs => rfl
  rw [authGate_some, htr, hb, Bool.true_and, if_pos rfl, hv]
  show (if x ≠ username then some HErr.tokenMismatch else none) = some HErr.tokenMismatch
  rw [if_pos hx]

/-- C5: a submitClip call carrying a Bearer header whose token verifies to an
identity x different from the declared username fails with the 403
authorization error and the state, hence both the blob store and the
metadata store, is unchanged. -/
theorem c5_token_mismatch (cfg : Settings) (st : St) (file : UploadFileInfo)
    (username : String) (duration : Option Int) (resolution : Option String)
    (fps : Option Int) (bitrate : Option Int) (h : String) (now : Nat)
    (clip_id : String) (uploadOk : Bool) (x : String)
    (hb : pyStartswith h "Bearer " = true)
    (hv : verify_upload_token cfg (pyReplace h "Bearer " "") now = .ok x)
    (hx : x ≠ username) :
    upload_clip cfg st file username duration resolution fps bitrate (some h) now
      clip_id uploadOk = (.error .tokenMismatch, st) := by
  unfold upload_clip
  rw [authGate_mismatch cfg h username now x hb hv hx]

def tokenW : String := create_upload_token cfgA "alice" 50

def headerW : String := "Bearer " ++ tokenW

/-- C5 witness: a token for "alice" submitted with declared username "bob" is
rejected with the 403 error and nothing is stored -/
theorem c5_token_mismatch_witness :
    pyStartswith headerW "Bearer " = true ∧
    verify_upload_token cfgA (pyReplace headerW "Bearer " "") 60 = .ok "alice" ∧
    ("alice" : String) ≠ "bob" ∧
    upload_clip cfgA emptySt { filename := "a.mp4", size := none } "bob" none none none
      none (some headerW) 60 "xxxxxxxxxxxx" true = (.error .tokenMismatch, emptySt) :=
  ⟨by decide, by decide, by decide,
   c5_token_mismatch cfgA emptySt { filename := "a.mp4", size := none } "bob" none none
     none none headerW 60 "xxxxxxxxxxxx" true "alice" (by decide) (by decide) (by decide)⟩

/-- C10: when the Authorization header is present but does not start with
"Bearer ", token verification is skipped entirely: the call behaves exactly
like the same call with no Authorization header, whatever the header
contains. -/
theorem c10_non_bearer_header_skips_auth (cfg : Settings) (st : St) (file : UploadFileInfo)
    (username : String) (duration : Option Int) (resolution : Option String)
    (fps : Option Int) (bitrate : Option Int) (h : String) (now : Nat)
    (clip_id : String) (uploadOk : Bool)
    (hb : pyStartswith h "Bearer " = false) :
    upload_clip cfg st file username duration resolution fps bitrate (some h) now
      clip_id uploadOk
      = upload_clip cfg st file username duration resolution fps bitrate none now
          clip_id uploadOk := by
  unfold upload_clip
  rw [show authGate cfg (some h) username now = none from by
    rw [authGate_some, hb, Bool.and_false]
    rfl]
  rw [show authGate cfg none username now = none from rfl]

/-- C10 witness: a header "Token abc" (not a Bearer header) leaves the upload
identical to the unauthenticated one -/
theorem c10_non_bearer_header_skips_auth_witness :
    pyStartswith "Token abc" "Bearer " = false ∧
    upload_clip cfgA emptySt { filename := "a.mp4", size := none } "alice" none none none
      none (some "Token abc") 0 "wwwwwwwwwwww" true
      = upload_clip cfgA emptySt { filename := "a.mp4", size := none } "alice" none none
          none none none 0 "wwwwwwwwwwww" true :=
  ⟨by decide,
   c10_non_bearer_header_skips_auth cfgA emptySt { filename := "a.mp4", size := none }
     "alice" none none none none "Token abc" 0 "wwwwwwwwwwww" true (by decide)⟩

theorem get_clip_some (db : DbMap) (cid : String) (row : ClipRow) (h : db cid = some row) :
    get_clip db cid
      = some { id := row.id, owner := row.owner, filename := row.filename,
               storage_path := row.storage_path, duration_seconds := row.duration_seconds,
               file_size_bytes := row.file_size_bytes, resolution := row.resolution,
               fps := row.fps, bitrate_kbps := row.bitrate_kbps,
               thumbnail_path := row.thumbnail_path, created_at := row.created_at,
               views := row.views,
               settings := settingsOfColumn row.settings } := by
  unfold get_clip
  rw [h]

theorem pyJsonDumpObj_ne_nil (m : List (List Char × Jprim)) : pyJsonDumpObj m ≠ [] := by
  cases m with
  | nil => simp [pyJsonDumpObj]
  | cons kv t => simp [pyJsonDumpObj]

/-- C7: for every settings mapping carried by an inserted clip (a dict, so its
keys are distinct), a successful insert followed by get yields the settings
parsed back with the same key/value content, via the serialized text column:
json.dumps on insert, the truthiness check and json.loads on get. -/
theorem c7_settings_roundtrip (db : DbMap) (d : ClipData) (now : Nat) (db' : DbMap)
    (hins : insert_clip db d now = .ok db')
    (hnd : (pyKeys d.settings).Nodup) :
    ∃ c, get_clip db' d.id = some c ∧ c.settings = .parsed (.obj d.settings) := by
  unfold insert_clip at hins
  by_cases hs : (db d.id).isSome
  · rw [if_pos hs] at hins
    exact absurd hins (by simp)
  · rw [if_neg hs] at hins
    injection hins with hfn
    subst hfn
    have hlook : (fun x => if x = d.id then some (insertedRow d now) else db x) d.id
        = some (insertedRow d now) := by simp
    rw [get_clip_some _ _ _ hlook]
    refine ⟨_, rfl, ?_⟩
    show settingsOfColumn (insertedRow d now).settings = .parsed (.obj d.settings)
    show (if pyJsonDumpObj d.settings ≠ [] then
            (match pyJsonLoads (pyJsonDumpObj d.settings) with
             | some j => SettingsField.parsed j
             | none => SettingsField.loadError)
          else SettingsField.raw (some (pyJsonDumpObj d.settings)))
        = SettingsField.parsed (PyJson.obj d.settings)
    rw [if_pos (pyJsonDumpObj_ne_nil d.settings)]
    rw [pyJsonLoads_dumpObj_nodup d.settings hnd]

def rtData : ClipData :=
  { id := "r1", owner := "alice", filename := "a.mp4",
    storage_path := "clips/alice/r1.mp4", duration := none, file_size := none,
    resolution := none, fps := none, bitrate := none,
    settings := [("a".data, Jprim.jint 1), ("b".data, Jprim.jstr "x".data)] }

def rtDb1 : DbMap := fun _ => none

def rtDb2 : DbMap :=
  match insert_clip rtDb1 rtData 7 with
  | .ok f => f
  | .error _ => rtDb1

/-- C7 witness: a two-key settings mapping survives insert followed by get -/
theorem c7_settings_roundtrip_witness :
    insert_clip rtDb1 rtData 7 = .ok rtDb2 ∧ (pyKeys rtData.settings).Nodup ∧
    ∃ c, get_clip rtDb2 rtData.id = some c ∧ c.settings = .parsed (.obj rtData.settings) :=
  ⟨rfl, by decide, c7_settings_roundtrip rtDb1 rtData 7 rtDb2 rfl (by decide)⟩

/-- C8: along every sequence of exposed operations, a stored clip is never
deleted, its id, owner, filename, storage_path and created_at fields never
change, and its view counter never decreases; moreover a single exposed
operation either leaves the stored record unchanged or - only for the watch
operation on that very id, whose increment_views is the sole mutator - bumps
its views by exactly one. -/
theorem c8_clip_record_invariants (cfg : Settings) (ops : List Op) (st : St) (id : String)
    (row : ClipRow) (h : st.clips id = some row) :
    (∃ row', (applyOps cfg st ops).clips id = some row' ∧
      row'.id = row.id ∧ row'.owner = row.owner ∧ row'.filename = row.filename ∧
      row'.storage_path = row.storage_path ∧ row'.created_at = row.created_at ∧
      row.views ≤ row'.views) ∧
    (∀ op, (applyOp cfg st op).clips id = some row ∨
      (op = Op.watch id ∧ (applyOp cfg st op).clips id = some (bumpViews row))) :=
  ⟨applyOps_clips cfg ops st id row h, fun op => applyOp_clips cfg st op id row h⟩

def rowW : ClipRow :=
  { id := "w1", owner := "alice", filename := "a.mp4",
    storage_path := "clips/alice/w1.mp4", duration_seconds := some 3,
    file_size_bytes := none, resolution := none, fps := none, bitrate_kbps := none,
    thumbnail_path := none, created_at := 5, views := 0,
    settings := some ['\x7b', '\x7d'] }

def stW : St :=
  { clips := fun x => if x = "w1" then some rowW else none,
    blobs := ["clips/alice/w1.mp4"] }

/-- C8 witness: a concrete one-clip state run through a watch followed by a
metadata fetch -/
theorem c8_clip_record_invariants_witness :
    (∃ row', (applyOps cfgA stW [Op.watch "w1", Op.getMeta "w1"]).clips "w1" = some row' ∧
      row'.id = rowW.id ∧ row'.owner = rowW.owner ∧ row'.filename = rowW.filename ∧
      row'.storage_path = rowW.storage_path ∧ row'.created_at = rowW.created_at ∧
      rowW.views ≤ row'.views) ∧
    (∀ op, (applyOp cfgA stW op).clips "w1" = some rowW ∨
      (op = Op.watch "w1" ∧ (applyOp cfgA stW op).clips "w1" = some (bumpViews rowW))) :=
  c8_clip_record_invariants cfgA [Op.watch "w1", Op.getMeta "w1"] stW "w1" rowW rfl
